import Mathlib

/-!
Shallow embedding of `src/GifSauce.rs` (a GIF container parser/serializer with
an inline LZW decoder).  Byte streams are `List Nat` (each element a byte value,
0–255 for streams that were read from a file); Rust `u16`/`usize` arithmetic
that cannot overflow on the reachable value ranges is modelled on `Nat`.
Fallible readers take the remaining input and return the parsed value together
with the unconsumed rest, or an error; Rust panics (out-of-bounds indexing) and
`process::exit` are explicit result constructors.
-/

namespace GifSauce

/-- Error kinds of `std::io::Error` the program distinguishes:
`ErrorKind::UnexpectedEof` (checked by kind in two places) and
`ErrorKind::InvalidData` with its message. -/
inductive RsError where
  | unexpectedEof
  | invalidData (msg : String)
deriving DecidableEq

/-- Result of running a fragment of the program: normal value, `Err`,
a Rust panic (out-of-bounds slice indexing), or `process::exit`. -/
inductive Rr (α : Type) where
  | ok (a : α)
  | err (e : RsError)
  | panicked
  | exited (code : Nat)
deriving DecidableEq

def Rr.bind {α β : Type} : Rr α → (α → Rr β) → Rr β
  | .ok a, f => f a
  | .err e, _ => .err e
  | .panicked, _ => .panicked
  | .exited c, _ => .exited c

instance : Monad Rr where
  pure := Rr.ok
  bind := Rr.bind

/-- `Read::read_exact` into a buffer of `n` bytes: succeeds iff at least `n`
bytes remain, returning the bytes read and the rest of the stream. -/
def readExact (n : Nat) (s : List Nat) : Rr (List Nat × List Nat) :=
  if n ≤ s.length then .ok (s.take n, s.drop n) else .err .unexpectedEof

/-- `read_exact` into a 1-byte buffer, returning the byte. -/
def readU8 (s : List Nat) : Rr (Nat × List Nat) :=
  match s with
  | [] => .err .unexpectedEof
  | b :: rest => .ok (b, rest)

/-- `read_exact` into a 2-byte buffer followed by `u16::from_le_bytes`. -/
def readU16le (s : List Nat) : Rr (Nat × List Nat) :=
  match s with
  | b0 :: b1 :: rest => .ok (b0 + 256 * b1, rest)
  | _ => .err .unexpectedEof

@[simp] theorem Rr.bind_ok {α β : Type} (a : α) (f : α → Rr β) :
    (Rr.ok a >>= f) = f a := rfl

@[simp] theorem Rr.bind_err {α β : Type} (e : RsError) (f : α → Rr β) :
    ((Rr.err e : Rr α) >>= f) = Rr.err e := rfl

@[simp] theorem Rr.bind_panicked {α β : Type} (f : α → Rr β) :
    ((Rr.panicked : Rr α) >>= f) = Rr.panicked := rfl

@[simp] theorem Rr.bind_exited {α β : Type} (c : Nat) (f : α → Rr β) :
    ((Rr.exited c : Rr α) >>= f) = Rr.exited c := rfl

@[simp] theorem Rr.pure_eq_ok {α : Type} (a : α) : (pure a : Rr α) = Rr.ok a := rfl

/-! ## Data model (the structs of `GifSauce.rs`)

Rust `String` fields that are produced by `String::from_utf8_lossy` are
modelled as the byte lists they came from. -/

structure GIFHeader where
  signature : List Nat
  version : List Nat
deriving DecidableEq

structure LogicalScreenDescriptor where
  width : Nat
  height : Nat
  packed_field : Nat
  background_color_index : Nat
  pixel_aspect : Nat
deriving DecidableEq

structure ColorTable where
  colors : List (List Nat)
deriving DecidableEq

structure GraphicsControlExtension where
  packed_field : Nat
  delay_time : Nat
  transparent_color_index : Nat
deriving DecidableEq

structure CommentExtension where
  comments : List (List Nat)
deriving DecidableEq

structure ApplicationExtension where
  identifier : List Nat
  authentication_code : List Nat
  data : List Nat
deriving DecidableEq

structure PlainTextExtension where
  block_size : Nat
  text_grid_left_position : Nat
  text_grid_top_position : Nat
  text_grid_width : Nat
  text_grid_height : Nat
  character_cell_width : Nat
  character_cell_height : Nat
  text_foreground_color_index : Nat
  text_background_color_index : Nat
  plain_text_data : List Nat
deriving DecidableEq

structure ImageDescriptor where
  left : Nat
  top : Nat
  width : Nat
  height : Nat
  packed_field : Nat
  local_color_table : Option ColorTable
  lzw_minimum_code_size : Nat
  image_data : List Nat
deriving DecidableEq

structure GIF where
  header : GIFHeader
  logical_screen_descriptor : LogicalScreenDescriptor
  global_color_table : Option ColorTable
  graphics_control_extension : Option GraphicsControlExtension
  comment_extensions : List CommentExtension
  application_extensions : List ApplicationExtension
  plain_text_extensions : List PlainTextExtension
  image_descriptors : List ImageDescriptor
deriving DecidableEq

/-! ## Block readers -/

/-- `read_gif_header` (lines 92–102): reads 3 signature bytes and 3 version
bytes.  The signature value is not inspected. -/
def read_gif_header (s : List Nat) : Rr (GIFHeader × List Nat) := do
  let (signature, s) ← readExact 3 s
  let (version, s) ← readExact 3 s
  pure (⟨signature, version⟩, s)

/-- `read_logical_screen_descriptor` (lines 104–134). -/
def read_logical_screen_descriptor (s : List Nat) : Rr (LogicalScreenDescriptor × List Nat) := do
  let (w, s) ← readU16le s
  let (h, s) ← readU16le s
  let (pf, s) ← readU8 s
  let (bg, s) ← readU8 s
  let (ar, s) ← readU8 s
  pure (⟨w, h, pf, bg, ar⟩, s)

/-- `read_color_table` (lines 136–146): reads `size` RGB triples. -/
def read_color_table : Nat → List Nat → Rr (ColorTable × List Nat)
  | 0, s => .ok (⟨[]⟩, s)
  | n + 1, s => do
    let (c, s) ← readExact 3 s
    let (ct, s) ← read_color_table n s
    pure (⟨c :: ct.colors⟩, s)

/-- `read_graphics_control_extension` (lines 148–179): 1-byte block size that
must equal 4, then packed field, delay time (u16le), transparent color index,
and the block terminator byte. -/
def read_graphics_control_extension (s : List Nat) : Rr (GraphicsControlExtension × List Nat) := do
  let (bs, s) ← readU8 s
  if bs ≠ 4 then
    Rr.err (.invalidData "Invalid block size for graphics control extension.")
  else do
    let (pf, s) ← readU8 s
    let (dt, s) ← readU16le s
    let (tci, s) ← readU8 s
    let (_, s) ← readU8 s
    pure (⟨pf, dt, tci⟩, s)

/-- The sub-block loop used by the comment / application / plain-text readers
and the unknown-extension skipper: a length byte `n`, then `n` payload bytes,
repeated until a zero length byte.  Returns the payload chunks. -/
def readSubBlocks : List Nat → Rr (List (List Nat) × List Nat)
  | [] => .err .unexpectedEof
  | 0 :: rest => .ok ([], rest)
  | (n + 1) :: rest =>
    if n + 1 ≤ rest.length then
      match readSubBlocks (rest.drop (n + 1)) with
      | .ok (bs, rest2) => .ok (rest.take (n + 1) :: bs, rest2)
      | .err e => .err e
      | .panicked => .panicked
      | .exited c => .exited c
    else .err .unexpectedEof
termination_by s => s.length
decreasing_by simp [List.length_drop]; omega

/-- `read_comment_extension` (lines 181–197): one text fragment per sub-block. -/
def read_comment_extension (s : List Nat) : Rr (CommentExtension × List Nat) := do
  let (frags, s) ← readSubBlocks s
  pure (⟨frags⟩, s)

/-- `read_application_extension` (lines 199–237): block size must equal 11,
8-byte identifier, 3-byte authentication code, then the sub-block data
concatenated. -/
def read_application_extension (s : List Nat) : Rr (ApplicationExtension × List Nat) := do
  let (bs, s) ← readU8 s
  if bs ≠ 11 then
    Rr.err (.invalidData "Invalid application extension block size.")
  else do
    let (ident, s) ← readExact 8 s
    let (auth, s) ← readExact 3 s
    let (blocks, s) ← readSubBlocks s
    pure (⟨ident, auth, blocks.flatten⟩, s)

/-- `read_plain_text_extension` (lines 239–302): 1-byte block size (not
validated), four u16le grid fields, four u8 fields, then the sub-block text
data concatenated. -/
def read_plain_text_extension (s : List Nat) : Rr (PlainTextExtension × List Nat) := do
  let (bs, s) ← readU8 s
  let (gl, s) ← readU16le s
  let (gt, s) ← readU16le s
  let (gw, s) ← readU16le s
  let (gh, s) ← readU16le s
  let (cw, s) ← readU8 s
  let (ch, s) ← readU8 s
  let (fg, s) ← readU8 s
  let (bg, s) ← readU8 s
  let (blocks, s) ← readSubBlocks s
  pure (⟨bs, gl, gt, gw, gh, cw, ch, fg, bg, blocks.flatten⟩, s)

/-- The unknown-extension skip loop of `parse_gif` (lines 547–558): same
sub-block framing, contents discarded. -/
def skipBlocks (s : List Nat) : Rr (List Nat) := do
  let (_, s) ← readSubBlocks s
  pure s

/-! ## LZW decoder (`read_lzw_data`, lines 368–462)

The Rust loop state is split into the dictionary-side state (`LzwState`,
everything `lzwStep` touches: output, dictionary, `next_code`,
`current_bit_size`, `previous_code`) and the bit-accumulator
(`bit_buffer` / `bit_count`), which only the code-extraction loop touches.
`bit_buffer` is a `u32` in Rust; it stays below `2 ^ 20` there (at most 19
accumulated bits before extraction, bytes below 256), so plain `Nat` agrees. -/

/-- The initial dictionary (lines 377–379): one single-byte entry per value
below the clear code (`i as u8` truncates, hence `% 256`), then the two empty
placeholder entries for the clear and end codes. -/
def initDict (minSize : Nat) : List (List Nat) :=
  ((List.range (2 ^ minSize)).map fun i => [i % 256]) ++ [[], []]

structure LzwState where
  data : List Nat
  dict : List (List Nat)
  next_code : Nat
  bitSize : Nat
  prev : Option Nat
deriving DecidableEq

/-- Decoder state before any code is read (lines 377–387). -/
def initLzwState (minSize : Nat) : LzwState :=
  { data := [], dict := initDict minSize, next_code := 2 ^ minSize + 2,
    bitSize := minSize + 1, prev := none }

/-- The state after a clear code (lines 418–427): dictionary, `next_code`,
`current_bit_size` and `previous_code` reset; output kept. -/
def clearReset (minSize : Nat) (st : LzwState) : LzwState :=
  { data := st.data, dict := initDict minSize, next_code := 2 ^ minSize + 2,
    bitSize := minSize + 1, prev := none }

inductive EntryRes where
  | ok (e : List Nat)
  | invalid
  | panicked
deriving DecidableEq

/-- Resolution of a non-control code (lines 429–440): direct dictionary hit
when `code < next_code` (indexing panics if the slot does not exist);
otherwise, with a previous code, the synthesized entry
`dictionary[prev] ++ [dictionary[prev][0]]` (panicking on a missing slot or an
empty previous entry); otherwise the `"Invalid LZW code."` error. -/
def resolveEntry (st : LzwState) (code : Nat) : EntryRes :=
  if code < st.next_code then
    match st.dict[code]? with
    | some e => .ok e
    | none => .panicked
  else
    match st.prev with
    | some p =>
      match st.dict[p]? with
      | some (b :: t) => .ok ((b :: t) ++ [b])
      | some [] => .panicked
      | none => .panicked
    | none => .invalid

inductive LzwStepRes where
  | next (st : LzwState)
  | finished (data : List Nat)
  | invalid
  | panicked
deriving DecidableEq

/-- Output and dictionary update for a resolved entry (lines 442–458): the
entry is appended to the output; if a previous code exists, the new dictionary
entry `dictionary[prev] ++ [entry[0]]` is registered while `next_code < 4096`,
and `current_bit_size` grows by one when the updated `next_code` equals
`2 ^ current_bit_size` and the width is still below 12.  `previous_code`
becomes the handled code. -/
def registerEntry (st : LzwState) (entry : List Nat) (code : Nat) : LzwStepRes :=
  match st.prev with
  | none => .next { st with data := st.data ++ entry, prev := some code }
  | some p =>
    match st.dict[p]?, entry with
    | none, _ => .panicked
    | some _, [] => .panicked
    | some pe, e0 :: _ =>
      let grow := st.next_code < 4096
      let dict2 := if grow then st.dict ++ [pe ++ [e0]] else st.dict
      let next2 := if grow then st.next_code + 1 else st.next_code
      let bitSize2 := if next2 = 2 ^ st.bitSize ∧ st.bitSize < 12 then st.bitSize + 1 else st.bitSize
      .next { data := st.data ++ entry, dict := dict2, next_code := next2,
              bitSize := bitSize2, prev := some code }

/-- Handling of one extracted code (lines 414–458): end code finishes, clear
code resets, any other code is resolved and registered. -/
def lzwStep (minSize : Nat) (st : LzwState) (code : Nat) : LzwStepRes :=
  let clear_code := 2 ^ minSize
  if code = clear_code + 1 then .finished st.data
  else if code = clear_code then .next (clearReset minSize st)
  else
    match resolveEntry st code with
    | .ok entry => registerEntry st entry code
    | .invalid => .invalid
    | .panicked => .panicked

inductive LzwOut where
  | more (st : LzwState) (bitBuffer bitCount : Nat)
  | finished (data : List Nat)
  | invalid
  | panicked
deriving DecidableEq

/-- The code-extraction loop (lines 409–459): while `bit_count` holds at least
`current_bit_size` bits, take the low `current_bit_size` bits as the next code
and handle it.  The extra `0 < st.bitSize` guard is required for termination;
it always holds, because `current_bit_size` is only ever set to
`minimum_code_size + 1` or incremented. -/
def extractCodes (minSize : Nat) (st : LzwState) (bitBuffer bitCount : Nat) : LzwOut :=
  if _h : 0 < st.bitSize ∧ st.bitSize ≤ bitCount then
    let code := bitBuffer % 2 ^ st.bitSize
    match lzwStep minSize st code with
    | .next st2 => extractCodes minSize st2 (bitBuffer / 2 ^ st.bitSize) (bitCount - st.bitSize)
    | .finished d => .finished d
    | .invalid => .invalid
    | .panicked => .panicked
  else .more st bitBuffer bitCount
termination_by bitCount
decreasing_by omega

/-- The per-byte loop over one sub-block's payload (lines 404–460):
`bit_buffer |= byte << bit_count; bit_count += 8;` then code extraction. -/
def processBytes (minSize : Nat) : List Nat → LzwState → Nat → Nat → LzwOut
  | [], st, buf, cnt => .more st buf cnt
  | b :: bs, st, buf, cnt =>
    match extractCodes minSize st (buf ||| (b <<< cnt)) (cnt + 8) with
    | .more st2 buf2 cnt2 => processBytes minSize bs st2 buf2 cnt2
    | out => out

/-- The outer sub-block loop of `read_lzw_data` (lines 389–461): EOF while
reading the length byte returns the data decoded so far (line 393); EOF inside
a sub-block's payload is an error (line 401); an end code returns immediately,
leaving everything after the current sub-block unconsumed.  A zero length
byte is processed as an empty payload and the loop continues. -/
def readLzwLoop (minSize : Nat) : List Nat → LzwState → Nat → Nat → Rr (List Nat × List Nat)
  | [], st, _, _ => .ok (st.data, [])
  | bs :: rest, st, buf, cnt =>
    if bs ≤ rest.length then
      match processBytes minSize (rest.take bs) st buf cnt with
      | .more st2 buf2 cnt2 => readLzwLoop minSize (rest.drop bs) st2 buf2 cnt2
      | .finished d => .ok (d, rest.drop bs)
      | .invalid => .err (.invalidData "Invalid LZW code.")
      | .panicked => .panicked
    else .err .unexpectedEof
termination_by s => s.length
decreasing_by simp [List.length_drop]; omega

/-- `read_lzw_data` (lines 368–462). -/
def read_lzw_data (minSize : Nat) (s : List Nat) : Rr (List Nat × List Nat) :=
  readLzwLoop minSize s (initLzwState minSize) 0 0

/-- The conditional color-table read both `read_image_descriptor`
(lines 340–344) and `parse_gif` (lines 496–500) perform: `size > 0` reads a
table of that many entries, otherwise no table. -/
def readColorTableOpt (size : Nat) (s : List Nat) : Rr (Option ColorTable × List Nat) :=
  if 0 < size then do
    let (ct, s2) ← read_color_table size s
    pure (some ct, s2)
  else pure (none, s)

/-- The local-color-table size of `read_image_descriptor` (lines 333–337):
presence flag bit 7, size `2 ^ ((packed & 0b111) + 1)`. -/
def localColorTableSize (packed : Nat) : Nat :=
  if packed &&& 128 ≠ 0 then 2 ^ ((packed &&& 7) + 1) else 0

/-- `read_image_descriptor` (lines 304–366): `0x2C` separator, geometry,
packed field, optional local color table, LZW minimum code size, then the
decoded image data. -/
def read_image_descriptor (s : List Nat) : Rr (ImageDescriptor × List Nat) := do
  let (sep, s) ← readU8 s
  if sep ≠ 0x2C then
    Rr.err (.invalidData "Invalid image descriptor separator.")
  else do
    let (l, s) ← readU16le s
    let (t, s) ← readU16le s
    let (w, s) ← readU16le s
    let (h, s) ← readU16le s
    let (pf, s) ← readU8 s
    let (lct, s) ← readColorTableOpt (localColorTableSize pf) s
    let (mcs, s) ← readU8 s
    let (idata, s) ← read_lzw_data mcs s
    pure (⟨l, t, w, h, pf, lct, mcs, idata⟩, s)

/-! ### Consumption bounds

Every reader returns a suffix of its input; these length bounds justify the
termination of the top-level block loop below. -/

theorem Rr.bind_eq_ok {α β : Type} {e : Rr α} {f : α → Rr β} {b : β} :
    (e >>= f) = Rr.ok b ↔ ∃ a, e = Rr.ok a ∧ f a = Rr.ok b := by
  cases e <;> simp [Rr.bind_ok, Rr.bind_err, Rr.bind_panicked, Rr.bind_exited]

theorem readU8_len {s : List Nat} {b : Nat} {s2 : List Nat}
    (h : readU8 s = .ok (b, s2)) : s2.length + 1 = s.length := by
  cases s <;> simp_all [readU8]

theorem readU16le_len {s : List Nat} {v : Nat} {s2 : List Nat}
    (h : readU16le s = .ok (v, s2)) : s2.length + 2 = s.length := by
  match s with
  | [] => simp [readU16le] at h
  | [b0] => simp [readU16le] at h
  | b0 :: b1 :: r => simp_all [readU16le]

theorem readExact_len {n : Nat} {s t s2 : List Nat}
    (h : readExact n s = .ok (t, s2)) : s2.length ≤ s.length := by
  unfold readExact at h
  split at h <;> simp_all
  rcases h with ⟨-, rfl⟩
  simp

theorem read_color_table_len {n : Nat} {s : List Nat} {ct : ColorTable} {s2 : List Nat}
    (h : read_color_table n s = .ok (ct, s2)) : s2.length ≤ s.length := by
  induction n generalizing s ct s2 with
  | zero =>
    simp [read_color_table] at h
    rcases h with ⟨-, rfl⟩
    exact le_refl _
  | succ n ih =>
    unfold read_color_table at h
    rw [Rr.bind_eq_ok] at h
    obtain ⟨⟨c, s1⟩, h1, h⟩ := h
    rw [Rr.bind_eq_ok] at h
    obtain ⟨⟨ct1, s3⟩, h2, h⟩ := h
    simp at h
    obtain ⟨-, rfl⟩ := h
    exact le_trans (ih h2) (readExact_len h1)

theorem readSubBlocks_len {s : List Nat} {bs : List (List Nat)} {s2 : List Nat}
    (h : readSubBlocks s = .ok (bs, s2)) : s2.length ≤ s.length := by
  induction s using readSubBlocks.induct generalizing bs s2 with
  | case1 => simp [readSubBlocks] at h
  | case2 rest =>
    simp [readSubBlocks] at h
    rcases h with ⟨-, rfl⟩
    simp
  | case3 n rest hle bs1 rest2 hrec ih =>
    simp only [readSubBlocks] at h
    rw [if_pos hle, hrec] at h
    simp at h
    rcases h with ⟨-, rfl⟩
    have h2 := ih hrec
    simp [List.length_drop] at h2 ⊢
    omega
  | case4 n rest hle e hrec ih =>
    simp only [readSubBlocks] at h
    rw [if_pos hle, hrec] at h
    simp at h
  | case5 n rest hle hrec ih =>
    simp only [readSubBlocks] at h
    rw [if_pos hle, hrec] at h
    simp at h
  | case6 n rest hle c hrec ih =>
    simp only [readSubBlocks] at h
    rw [if_pos hle, hrec] at h
    simp at h
  | case7 n rest hle =>
    simp only [readSubBlocks] at h
    rw [if_neg hle] at h
    simp at h

theorem read_graphics_control_extension_len {s : List Nat} {g : GraphicsControlExtension}
    {s2 : List Nat} (h : read_graphics_control_extension s = .ok (g, s2)) :
    s2.length ≤ s.length := by
  unfold read_graphics_control_extension at h
  simp only [Rr.bind_eq_ok, Prod.exists] at h
  obtain ⟨bs, s1, h1, h⟩ := h
  split at h
  · simp at h
  · simp only [Rr.bind_eq_ok, Prod.exists] at h
    obtain ⟨pf, s3, h2, dt, s4, h3, tci, s5, h4, t0, s6, h5, h⟩ := h
    simp at h
    rcases h with ⟨-, rfl⟩
    have e1 := readU8_len h1
    have e2 := readU8_len h2
    have e3 := readU16le_len h3
    have e4 := readU8_len h4
    have e5 := readU8_len h5
    omega

theorem read_comment_extension_len {s : List Nat} {ce : CommentExtension}
    {s2 : List Nat} (h : read_comment_extension s = .ok (ce, s2)) :
    s2.length ≤ s.length := by
  unfold read_comment_extension at h
  simp only [Rr.bind_eq_ok, Prod.exists] at h
  obtain ⟨fr, s1, h1, h⟩ := h
  simp at h
  rcases h with ⟨-, rfl⟩
  exact readSubBlocks_len h1

theorem read_application_extension_len {s : List Nat} {ae : ApplicationExtension}
    {s2 : List Nat} (h : read_application_extension s = .ok (ae, s2)) :
    s2.length ≤ s.length := by
  unfold read_application_extension at h
  simp only [Rr.bind_eq_ok, Prod.exists] at h
  obtain ⟨bs, s1, h1, h⟩ := h
  split at h
  · simp at h
  · simp only [Rr.bind_eq_ok, Prod.exists] at h
    obtain ⟨ident, s3, h2, auth, s4, h3, blocks, s5, h4, h⟩ := h
    simp at h
    rcases h with ⟨-, rfl⟩
    have e1 := readU8_len h1
    have e2 := readExact_len h2
    have e3 := readExact_len h3
    have e4 := readSubBlocks_len h4
    omega

theorem read_plain_text_extension_len {s : List Nat} {pe : PlainTextExtension}
    {s2 : List Nat} (h : read_plain_text_extension s = .ok (pe, s2)) :
    s2.length ≤ s.length := by
  unfold read_plain_text_extension at h
  simp only [Rr.bind_eq_ok, Prod.exists] at h
  obtain ⟨bs, s1, h1, gl, sa, h2, gt, sb, h3, gw, sc, h4, gh, sd, h5,
          cw, se, h6, ch, sf, h7, fg, sg, h8, bg, sh, h9, blocks, si, h10, h⟩ := h
  simp at h
  rcases h with ⟨-, rfl⟩
  have e1 := readU8_len h1
  have e2 := readU16le_len h2
  have e3 := readU16le_len h3
  have e4 := readU16le_len h4
  have e5 := readU16le_len h5
  have e6 := readU8_len h6
  have e7 := readU8_len h7
  have e8 := readU8_len h8
  have e9 := readU8_len h9
  have e10 := readSubBlocks_len h10
  omega

theorem skipBlocks_len {s s2 : List Nat} (h : skipBlocks s = .ok s2) :
    s2.length ≤ s.length := by
  unfold skipBlocks at h
  simp only [Rr.bind_eq_ok, Prod.exists] at h
  obtain ⟨fr, s1, h1, h⟩ := h
  simp at h
  subst h
  exact readSubBlocks_len h1

theorem readLzwLoop_len {m : Nat} {s : List Nat} {st : LzwState} {buf cnt : Nat}
    {d s2 : List Nat} (h : readLzwLoop m s st buf cnt = .ok (d, s2)) :
    s2.length ≤ s.length := by
  induction s, st, buf, cnt using readLzwLoop.induct m generalizing d s2 with
  | case1 st buf cnt =>
    simp [readLzwLoop] at h
    rcases h with ⟨-, rfl⟩
    simp
  | case2 bs rest st buf cnt hle st2 buf2 cnt2 hrec ih =>
    simp only [readLzwLoop] at h
    rw [if_pos hle, hrec] at h
    have h2 := ih h
    simp [List.length_drop] at h2 ⊢
    omega
  | case3 bs rest st buf cnt hle d2 hrec =>
    simp only [readLzwLoop] at h
    rw [if_pos hle, hrec] at h
    simp at h
    rcases h with ⟨-, rfl⟩
    simp [List.length_drop]
    omega
  | case4 bs rest st buf cnt hle hrec =>
    simp only [readLzwLoop] at h
    rw [if_pos hle, hrec] at h
    simp at h
  | case5 bs rest st buf cnt hle hrec =>
    simp only [readLzwLoop] at h
    rw [if_pos hle, hrec] at h
    simp at h
  | case6 bs rest st buf cnt hle =>
    simp only [readLzwLoop] at h
    rw [if_neg hle] at h
    simp at h

theorem read_lzw_data_len {m : Nat} {s : List Nat} {d s2 : List Nat}
    (h : read_lzw_data m s = .ok (d, s2)) : s2.length ≤ s.length :=
  readLzwLoop_len h

theorem readColorTableOpt_len {n : Nat} {s : List Nat} {ct : Option ColorTable}
    {s2 : List Nat} (h : readColorTableOpt n s = .ok (ct, s2)) :
    s2.length ≤ s.length := by
  unfold readColorTableOpt at h
  split at h
  · simp only [Rr.bind_eq_ok, Prod.exists] at h
    obtain ⟨c, sx, hx, h⟩ := h
    simp at h
    rcases h with ⟨-, rfl⟩
    exact read_color_table_len hx
  · simp at h
    rcases h with ⟨-, rfl⟩
    exact le_refl _

theorem read_image_descriptor_len {s : List Nat} {img : ImageDescriptor}
    {s2 : List Nat} (h : read_image_descriptor s = .ok (img, s2)) :
    s2.length ≤ s.length := by
  unfold read_image_descriptor at h
  simp only [Rr.bind_eq_ok, Prod.exists] at h
  obtain ⟨sep, s1, h1, h⟩ := h
  split at h
  · simp at h
  · simp only [Rr.bind_eq_ok, Prod.exists] at h
    obtain ⟨l, sa, h2, t, sb, h3, w, sc, h4, hh, sd, h5, pf, se, h6, h⟩ := h
    obtain ⟨lct, sf, hlct, mcs, sg, h7, idata, sh, h8, h⟩ := h
    simp at h
    rcases h with ⟨-, rfl⟩
    have e1 := readU8_len h1
    have e2 := readU16le_len h2
    have e3 := readU16le_len h3
    have e4 := readU16le_len h4
    have e5 := readU16le_len h5
    have e6 := readU8_len h6
    have e7 := readU8_len h7
    have e8 := read_lzw_data_len h8
    have elct := readColorTableOpt_len hlct
    omega

/-! ## The top-level block loop of `parse_gif` (lines 509–583) -/

/-- The mutable accumulators of `parse_gif`'s block loop (lines 503–509). -/
structure ParseAcc where
  graphics_control_extension : Option GraphicsControlExtension
  comment_extensions : List CommentExtension
  application_extensions : List ApplicationExtension
  plain_text_extensions : List PlainTextExtension
  image_descriptors : List ImageDescriptor
  plain_text_found : Bool
deriving DecidableEq

def initAcc : ParseAcc := ⟨none, [], [], [], [], false⟩

/-- One pass of the block-indicator loop (lines 510–583).  `0x21` dispatches
on the extension label (the plain-text branch also sets `plain_text_found`;
its `print!` has no effect on the parse state); `0x2C` seeks back one byte,
reads the image descriptor, then seeks one byte forward (modelled by
`List.drop 1`); `0x3B` breaks; EOF while reading the indicator breaks
gracefully; any other indicator is an error. -/
def parseLoop : List Nat → ParseAcc → Rr (ParseAcc × List Nat)
  | [], acc => .ok (acc, [])
  | b :: rest, acc =>
    if b = 0x21 then
      match rest with
      | [] => .err .unexpectedEof
      | ext :: rest2 =>
        if ext = 0xF9 then
          match _hg : read_graphics_control_extension rest2 with
          | .ok (g, rest3) => parseLoop rest3 { acc with graphics_control_extension := some g }
          | .err e => .err e
          | .panicked => .panicked
          | .exited c => .exited c
        else if ext = 0xFE then
          match _hc : read_comment_extension rest2 with
          | .ok (ce, rest3) =>
            parseLoop rest3 { acc with comment_extensions := acc.comment_extensions ++ [ce] }
          | .err e => .err e
          | .panicked => .panicked
          | .exited c => .exited c
        else if ext = 0xFF then
          match _ha : read_application_extension rest2 with
          | .ok (ae, rest3) =>
            parseLoop rest3 { acc with application_extensions := acc.application_extensions ++ [ae] }
          | .err e => .err e
          | .panicked => .panicked
          | .exited c => .exited c
        else if ext = 0x01 then
          match _hp : read_plain_text_extension rest2 with
          | .ok (pe, rest3) =>
            parseLoop rest3 { acc with plain_text_extensions := acc.plain_text_extensions ++ [pe],
                                       plain_text_found := true }
          | .err e => .err e
          | .panicked => .panicked
          | .exited c => .exited c
        else
          match _hs : skipBlocks rest2 with
          | .ok rest3 => parseLoop rest3 acc
          | .err e => .err e
          | .panicked => .panicked
          | .exited c => .exited c
    else if b = 0x2C then
      match _hi : read_image_descriptor (b :: rest) with
      | .ok (img, rest2) =>
        parseLoop (rest2.drop 1) { acc with image_descriptors := acc.image_descriptors ++ [img] }
      | .err e => .err e
      | .panicked => .panicked
      | .exited c => .exited c
    else if b = 0x3B then .ok (acc, rest)
    else .err (.invalidData "Invalid GIF format.")
termination_by s _ => s.length
decreasing_by
  · have := read_graphics_control_extension_len _hg
    simp only [List.length_cons]
    omega
  · have := read_comment_extension_len _hc
    simp only [List.length_cons]
    omega
  · have := read_application_extension_len _ha
    simp only [List.length_cons]
    omega
  · have := read_plain_text_extension_len _hp
    simp only [List.length_cons]
    omega
  · have := skipBlocks_len _hs
    simp only [List.length_cons]
    omega
  · have := read_image_descriptor_len _hi
    simp only [List.length_cons, List.length_drop] at *
    omega

/-- The global-color-table size computation of `parse_gif` (lines 489–494):
the table is read iff the low three bits of the packed field are nonzero, in
which case its length is `2 ^ ((packed & 0b111) + 1)`.  (The presence flag,
bit 7, is not consulted.) -/
def globalColorTableSize (packed : Nat) : Nat :=
  if 0 < packed &&& 7 then 2 ^ ((packed &&& 7) + 1) else 0

/-- The epilogue of `parse_gif` (lines 585–598): on a completed block loop,
`exit(0)` if any plain-text extension was seen, otherwise the assembled
`GIF`; loop failures propagate. -/
def finishParse (header : GIFHeader) (lsd : LogicalScreenDescriptor)
    (gct : Option ColorTable) : Rr (ParseAcc × List Nat) → Rr (GIF × List Nat)
  | .ok (acc, rest) =>
    if acc.plain_text_found then .exited 0
    else
      .ok ({ header := header, logical_screen_descriptor := lsd,
             global_color_table := gct,
             graphics_control_extension := acc.graphics_control_extension,
             comment_extensions := acc.comment_extensions,
             application_extensions := acc.application_extensions,
             plain_text_extensions := acc.plain_text_extensions,
             image_descriptors := acc.image_descriptors }, rest)
  | .err e => .err e
  | .panicked => .panicked
  | .exited c => .exited c

/-- `parse_gif` (lines 482–599): header, logical screen descriptor, optional
global color table, the block loop, then the epilogue. -/
def parse_gif (s : List Nat) : Rr (GIF × List Nat) := do
  let (header, s) ← read_gif_header s
  let (lsd, s) ← read_logical_screen_descriptor s
  let (gct, s) ← readColorTableOpt (globalColorTableSize lsd.packed_field) s
  finishParse header lsd gct (parseLoop s initAcc)

/-! ## Serializer fragment and specification-side definitions -/

/-- The comment-extension section of `reassemble_gif` (lines 636–644): the
introducer `0x21 0xFE`, one length byte `comment_bytes.len() as u8`
(truncation to `u8` modelled by `% 256`), the concatenation of all text
fragments, then the block terminator. -/
def writeCommentExt (c : CommentExtension) : List Nat :=
  [0x21, 0xFE] ++ [c.comments.flatten.length % 256] ++ c.comments.flatten ++ [0]

/-- Specification-side definition: a single length-prefixed sub-block holding
`payload`, followed by the zero-length terminator, per the sub-block framing
the spec describes (length byte equal to the payload length). -/
def singleSubBlock (payload : List Nat) : List Nat :=
  payload.length :: (payload ++ [0])

/-- Specification-side definition of the global-color-table size: the
presence flag is bit 7 of the packed field; when it is set the table length
is `2 ^ (e + 1)` for the low-three-bit exponent `e`; when it is clear no
table is present. -/
def gctSizeSpec (packed : Nat) : Nat :=
  if packed &&& 128 ≠ 0 then 2 ^ ((packed &&& 7) + 1) else 0

/-! ## Reachable decoder states

`extractCodes`, `processBytes` and `readLzwLoop` change the dictionary-side
decoder state only through `lzwStep`, so the states visited during any run of
`read_lzw_data minSize` are exactly those reachable from the initial state
through `lzwStep`. -/

inductive LzwReach (minSize : Nat) : LzwState → Prop where
  | init : LzwReach minSize (initLzwState minSize)
  | step {st st2 : LzwState} {code : Nat} : LzwReach minSize st →
      lzwStep minSize st code = .next st2 → LzwReach minSize st2

/-! ## Concrete byte streams -/

/-- The minimal 1×1 GIF of spec §8: `"GIF89a"`, screen descriptor 1×1 with
packed field `0x80` (global table present, two colors), two RGB entries
(black, white), one image block at 0,0 of size 1×1 with packed 0, minimum
code size 2, one sub-block whose bytes `0x44 0x01` encode clear code (4),
index 0, end code (5) in 3-bit codes, the sub-block terminator, and the
trailer. -/
def c4Input : List Nat :=
  [71, 73, 70, 56, 57, 97,
   1, 0, 1, 0, 0x80, 0, 0,
   0, 0, 0, 255, 255, 255,
   0x2C, 0, 0, 0, 0, 1, 0, 1, 0, 0,
   2,
   2, 0x44, 0x01,
   0,
   0x3B]

/-- A stream whose signature is `"GIX"` instead of `"GIF"`, followed by a
well-formed remainder (1×1 screen descriptor without color table, trailer). -/
def gixInput : List Nat :=
  [71, 73, 88, 56, 57, 97, 1, 0, 1, 0, 0, 0, 0, 0x3B]

/-- The document the parser produces for `gixInput`. -/
def gixGif : GIF :=
  { header := ⟨[71, 73, 88], [56, 57, 97]⟩,
    logical_screen_descriptor := ⟨1, 1, 0, 0, 0⟩,
    global_color_table := none,
    graphics_control_extension := none,
    comment_extensions := [],
    application_extensions := [],
    plain_text_extensions := [],
    image_descriptors := [] }

/-- A stream containing one (empty) plain-text extension: header, bare
screen descriptor, `0x21 0x01`, block size 12, the twelve fixed bytes, the
sub-block terminator, trailer. -/
def pteInput : List Nat :=
  [71, 73, 70, 56, 57, 97, 1, 0, 1, 0, 0, 0, 0,
   0x21, 0x01, 12, 0, 0, 0, 0, 0, 0, 0, 0, 0, 0, 0, 0, 0, 0x3B]

/-- A well-formed single-image GIF without color tables: the end code lies in
the final sub-block and exactly one terminator byte follows it. -/
def imgGoodInput : List Nat :=
  [71, 73, 70, 56, 57, 97, 1, 0, 1, 0, 0, 0, 0,
   0x2C, 0, 0, 0, 0, 1, 0, 1, 0, 0, 2, 2, 0x44, 0x01, 0, 0x3B]

/-- The document the parser produces for `imgGoodInput`. -/
def imgGoodGif : GIF :=
  { header := ⟨[71, 73, 70], [56, 57, 97]⟩,
    logical_screen_descriptor := ⟨1, 1, 0, 0, 0⟩,
    global_color_table := none,
    graphics_control_extension := none,
    comment_extensions := [],
    application_extensions := [],
    plain_text_extensions := [],
    image_descriptors := [⟨0, 0, 1, 1, 0, none, 2, [0]⟩] }

/-- Like `imgGoodInput`, but an extra one-byte sub-block `01 00` sits between
the sub-block holding the end code and the terminator, so the end code is not
in the final sub-block. -/
def imgBadInput : List Nat :=
  [71, 73, 70, 56, 57, 97, 1, 0, 1, 0, 0, 0, 0,
   0x2C, 0, 0, 0, 0, 1, 0, 1, 0, 0, 2, 2, 0x44, 0x01, 1, 0, 0, 0x3B]

/-- A comment extension whose single fragment holds 256 bytes. -/
def bigComment : CommentExtension := ⟨[List.replicate 256 1]⟩

/-- A stream whose screen-descriptor packed field is `0x80`: global-color-
table presence flag set, size exponent 0.  The trailer follows directly, as
it would in a stream whose two-entry table the parser was expected to
consume before the next block. -/
def c1Input : List Nat :=
  [71, 73, 70, 56, 57, 97, 1, 0, 1, 0, 0x80, 0, 0, 0x3B]

/-- The document the parser produces for `c1Input`: no global color table is
read although the presence flag is set. -/
def c1Gif : GIF :=
  { header := ⟨[71, 73, 70], [56, 57, 97]⟩,
    logical_screen_descriptor := ⟨1, 1, 0x80, 0, 0⟩,
    global_color_table := none,
    graphics_control_extension := none,
    comment_extensions := [],
    application_extensions := [],
    plain_text_extensions := [],
    image_descriptors := [] }

/-! ## Step equations of the block loop -/

theorem parseLoop_nil (acc : ParseAcc) : parseLoop [] acc = .ok (acc, []) := by
  simp [parseLoop]

theorem parseLoop_trailer (rest : List Nat) (acc : ParseAcc) :
    parseLoop (0x3B :: rest) acc = .ok (acc, rest) := by
  rw [parseLoop.eq_def]
  norm_num

theorem parseLoop_invalid (b : Nat) (hb1 : b ≠ 0x21) (hb2 : b ≠ 0x2C) (hb3 : b ≠ 0x3B)
    (rest : List Nat) (acc : ParseAcc) :
    parseLoop (b :: rest) acc = .err (.invalidData "Invalid GIF format.") := by
  rw [parseLoop.eq_def]
  norm_num [hb1, hb2, hb3]

theorem parseLoop_gce {rest2 rest3 : List Nat} {g : GraphicsControlExtension} (acc : ParseAcc)
    (h : read_graphics_control_extension rest2 = .ok (g, rest3)) :
    parseLoop (0x21 :: 0xF9 :: rest2) acc =
      parseLoop rest3 { acc with graphics_control_extension := some g } := by
  rw [parseLoop.eq_def]
  try norm_num
  split <;> simp_all

theorem parseLoop_comment {rest2 rest3 : List Nat} {ce : CommentExtension} (acc : ParseAcc)
    (h : read_comment_extension rest2 = .ok (ce, rest3)) :
    parseLoop (0x21 :: 0xFE :: rest2) acc =
      parseLoop rest3 { acc with comment_extensions := acc.comment_extensions ++ [ce] } := by
  rw [parseLoop.eq_def]
  try norm_num
  split <;> simp_all

theorem parseLoop_app {rest2 rest3 : List Nat} {ae : ApplicationExtension} (acc : ParseAcc)
    (h : read_application_extension rest2 = .ok (ae, rest3)) :
    parseLoop (0x21 :: 0xFF :: rest2) acc =
      parseLoop rest3 { acc with application_extensions := acc.application_extensions ++ [ae] } := by
  rw [parseLoop.eq_def]
  try norm_num
  split <;> simp_all

theorem parseLoop_pte {rest2 rest3 : List Nat} {pe : PlainTextExtension} (acc : ParseAcc)
    (h : read_plain_text_extension rest2 = .ok (pe, rest3)) :
    parseLoop (0x21 :: 0x01 :: rest2) acc =
      parseLoop rest3 { acc with plain_text_extensions := acc.plain_text_extensions ++ [pe],
                                 plain_text_found := true } := by
  rw [parseLoop.eq_def]
  try norm_num
  split <;> simp_all

theorem parseLoop_skip {ext : Nat} {rest2 rest3 : List Nat} (acc : ParseAcc)
    (hn1 : ext ≠ 0xF9) (hn2 : ext ≠ 0xFE) (hn3 : ext ≠ 0xFF) (hn4 : ext ≠ 0x01)
    (h : skipBlocks rest2 = .ok rest3) :
    parseLoop (0x21 :: ext :: rest2) acc = parseLoop rest3 acc := by
  rw [parseLoop.eq_def]
  try norm_num [hn1, hn2, hn3, hn4]
  split <;> simp_all

theorem parseLoop_img {rest rest2 : List Nat} {img : ImageDescriptor} (acc : ParseAcc)
    (h : read_image_descriptor (0x2C :: rest) = .ok (img, rest2)) :
    parseLoop (0x2C :: rest) acc =
      parseLoop (rest2.drop 1) { acc with image_descriptors := acc.image_descriptors ++ [img] } := by
  rw [parseLoop.eq_def]
  try norm_num
  split <;> simp_all

theorem parseLoop_ext_nil (acc : ParseAcc) : parseLoop [0x21] acc = .err .unexpectedEof := by
  rw [parseLoop.eq_def]
  norm_num

/-- The block loop can only clear the plain-text flag's invariant in one
direction: if the flag is clear on a successful exit, no plain-text extension
was accumulated. -/
theorem parseLoop_pt_inv {s : List Nat} {acc : ParseAcc} :
    ∀ {acc2 : ParseAcc} {rest2 : List Nat}, parseLoop s acc = .ok (acc2, rest2) →
    (acc.plain_text_found = false → acc.plain_text_extensions = []) →
    acc2.plain_text_found = false → acc2.plain_text_extensions = [] := by
  induction s, acc using parseLoop.induct with
  | case1 acc =>
    intro acc2 rest2 h hinv
    rw [parseLoop_nil] at h
    simp at h
    rcases h with ⟨rfl, rfl⟩
    exact hinv
  | case2 acc =>
    intro acc2 rest2 h hinv
    rw [parseLoop_ext_nil] at h
    simp at h
  | case3 acc rest g rest3 hg ih =>
    intro acc2 rest2 h hinv
    rw [parseLoop_gce acc hg] at h
    exact ih h hinv
  | case4 acc rest e hg =>
    intro acc2 rest2 h hinv
    rw [parseLoop.eq_def] at h
    norm_num at h
    split at h <;> simp_all
  | case5 acc rest hg =>
    intro acc2 rest2 h hinv
    rw [parseLoop.eq_def] at h
    norm_num at h
    split at h <;> simp_all
  | case6 acc rest c hg =>
    intro acc2 rest2 h hinv
    rw [parseLoop.eq_def] at h
    norm_num at h
    split at h <;> simp_all
  | case7 acc rest ce rest3 hc hne ih =>
    intro acc2 rest2 h hinv
    rw [parseLoop_comment acc hc] at h
    exact ih h hinv
  | case8 acc rest e hc hne =>
    intro acc2 rest2 h hinv
    rw [parseLoop.eq_def] at h
    norm_num at h
    split at h <;> simp_all
  | case9 acc rest hc hne =>
    intro acc2 rest2 h hinv
    rw [parseLoop.eq_def] at h
    norm_num at h
    split at h <;> simp_all
  | case10 acc rest c hc hne =>
    intro acc2 rest2 h hinv
    rw [parseLoop.eq_def] at h
    norm_num at h
    split at h <;> simp_all
  | case11 acc rest ae rest3 ha hne1 hne2 ih =>
    intro acc2 rest2 h hinv
    rw [parseLoop_app acc ha] at h
    exact ih h hinv
  | case12 acc rest e ha hne1 hne2 =>
    intro acc2 rest2 h hinv
    rw [parseLoop.eq_def] at h
    norm_num at h
    split at h <;> simp_all
  | case13 acc rest ha hne1 hne2 =>
    intro acc2 rest2 h hinv
    rw [parseLoop.eq_def] at h
    norm_num at h
    split at h <;> simp_all
  | case14 acc rest c ha hne1 hne2 =>
    intro acc2 rest2 h hinv
    rw [parseLoop.eq_def] at h
    norm_num at h
    split at h <;> simp_all
  | case15 acc rest pe rest3 hp h1 h2 h3 ih =>
    intro acc2 rest2 h hinv
    rw [parseLoop_pte acc hp] at h
    exact ih h (by simp)
  | case16 acc rest e hp h1 h2 h3 =>
    intro acc2 rest2 h hinv
    rw [parseLoop.eq_def] at h
    norm_num at h
    split at h <;> simp_all
  | case17 acc rest hp h1 h2 h3 =>
    intro acc2 rest2 h hinv
    rw [parseLoop.eq_def] at h
    norm_num at h
    split at h <;> simp_all
  | case18 acc rest c hp h1 h2 h3 =>
    intro acc2 rest2 h hinv
    rw [parseLoop.eq_def] at h
    norm_num at h
    split at h <;> simp_all
  | case19 acc b rest h1 h2 h3 h4 rest3 hsk ih =>
    intro acc2 rest2 h hinv
    rw [parseLoop_skip acc h1 h2 h3 h4 hsk] at h
    exact ih h hinv
  | case20 acc b rest h1 h2 h3 h4 e hsk =>
    intro acc2 rest2 h hinv
    rw [parseLoop.eq_def] at h
    norm_num [h1, h2, h3, h4] at h
    split at h <;> simp_all
  | case21 acc b rest h1 h2 h3 h4 hsk =>
    intro acc2 rest2 h hinv
    rw [parseLoop.eq_def] at h
    norm_num [h1, h2, h3, h4] at h
    split at h <;> simp_all
  | case22 acc b rest h1 h2 h3 h4 c hsk =>
    intro acc2 rest2 h hinv
    rw [parseLoop.eq_def] at h
    norm_num [h1, h2, h3, h4] at h
    split at h <;> simp_all
  | case23 rest acc img rest2 h44 hi ih =>
    intro acc2 rest3 h hinv
    rw [parseLoop_img acc hi] at h
    exact ih h hinv
  | case24 rest acc e h44 hi =>
    intro acc2 rest2 h hinv
    rw [parseLoop.eq_def] at h
    norm_num at h
    split at h <;> simp_all
  | case25 rest acc h44 hi =>
    intro acc2 rest2 h hinv
    rw [parseLoop.eq_def] at h
    norm_num at h
    split at h <;> simp_all
  | case26 rest acc c h44 hi =>
    intro acc2 rest2 h hinv
    rw [parseLoop.eq_def] at h
    norm_num at h
    split at h <;> simp_all
  | case27 rest acc h1 h2 =>
    intro acc2 rest2 h hinv
    rw [parseLoop_trailer] at h
    simp at h
    rcases h with ⟨rfl, rfl⟩
    exact hinv
  | case28 b rest acc h1 h2 h3 =>
    intro acc2 rest2 h hinv
    rw [parseLoop_invalid b h1 h2 h3] at h
    simp at h

/-! ## Invariants of the LZW decoder state -/

/-- The record the decoder maintains between codes: the dictionary has
exactly `next_code` entries, `next_code` stays between its initial value and
the 4096-entry cap, and the code width stays between `minimum_code_size + 1`
and 12 bits. -/
def LzwInv (m : Nat) (st : LzwState) : Prop :=
  st.dict.length = st.next_code ∧ 2 ^ m + 2 ≤ st.next_code ∧ st.next_code ≤ 4096 ∧
  m + 1 ≤ st.bitSize ∧ st.bitSize ≤ 12

theorem initDict_length (m : Nat) : (initDict m).length = 2 ^ m + 2 := by
  simp [initDict]

theorem lzwInv_init {m : Nat} (hm : m ≤ 11) : LzwInv m (initLzwState m) := by
  have hpow : 2 ^ m ≤ 2 ^ 11 := Nat.pow_le_pow_right (by norm_num) hm
  norm_num at hpow
  unfold LzwInv initLzwState
  simp [initDict_length m]
  omega

theorem lzwInv_clearReset {m : Nat} (st : LzwState) (hm : m ≤ 11) :
    LzwInv m (clearReset m st) := by
  have hpow : 2 ^ m ≤ 2 ^ 11 := Nat.pow_le_pow_right (by norm_num) hm
  norm_num at hpow
  unfold LzwInv clearReset
  simp [initDict_length m]
  omega

/-- One decoder step preserves the state invariant; moreover the dictionary
grows only when a previous code exists, and the code width increases by one
exactly when the step increments `next_code` to `2 ^ (current width)` while
the width is below 12. -/
theorem lzwStep_inv {m : Nat} {st st2 : LzwState} {code : Nat} (hm : m ≤ 11)
    (hI : LzwInv m st) (h : lzwStep m st code = .next st2) :
    LzwInv m st2 ∧
    (st.dict.length < st2.dict.length → st.prev.isSome = true) ∧
    (st2.bitSize = st.bitSize + 1 ↔
      st2.next_code = st.next_code + 1 ∧ st2.next_code = 2 ^ st.bitSize ∧ st.bitSize < 12) := by
  obtain ⟨hlen, hlo, hhi, hb1, hb2⟩ := hI
  unfold lzwStep at h
  dsimp only at h
  by_cases hend : code = 2 ^ m + 1
  · rw [if_pos hend] at h
    exact absurd h (by simp)
  · rw [if_neg hend] at h
    by_cases hclear : code = 2 ^ m
    · -- clear code: the state resets
      rw [if_pos hclear] at h
      simp at h
      subst h
      refine ⟨lzwInv_clearReset st hm, ?_, ?_⟩
      · intro hlt
        rw [show (clearReset m st).dict = initDict m from rfl, initDict_length m] at hlt
        omega
      · constructor
        · intro hbs
          exfalso
          have hx : m + 1 = st.bitSize + 1 := hbs
          omega
        · rintro ⟨hn, -, -⟩
          exfalso
          have hx : 2 ^ m + 2 = st.next_code + 1 := hn
          omega
    · -- a data code: resolve, output, register
      rw [if_neg hclear] at h
      cases hre : resolveEntry st code with
      | invalid => rw [hre] at h; simp at h
      | panicked => rw [hre] at h; simp at h
      | ok entry =>
        rw [hre] at h
        replace h : registerEntry st entry code = .next st2 := h
        unfold registerEntry at h
        split at h
        · -- no previous code: nothing is registered
          simp at h
          subst h
          refine ⟨⟨hlen, hlo, hhi, hb1, hb2⟩, ?_, ?_⟩
          · intro hlt
            simp at hlt
          · constructor
            · intro hbs
              exfalso
              have hx : st.bitSize = st.bitSize + 1 := hbs
              omega
            · rintro ⟨hn, -, -⟩
              exfalso
              have hx : st.next_code = st.next_code + 1 := hn
              omega
        · -- previous code exists: split on the inner match
          rename_i p hpv
          split at h
          · simp at h
          · simp at h
          · rename_i pe e0 et hdp hent
            simp only at h
            simp at h
            subst h
            by_cases hgrow : st.next_code < 4096
            · by_cases hc : st.next_code + 1 = 2 ^ st.bitSize ∧ st.bitSize < 12
              · refine ⟨⟨?_, ?_, ?_, ?_, ?_⟩, ?_, ?_⟩ <;>
                  simp [if_pos hgrow, if_pos hc, hpv, hc.1, hc.2, hlen] <;> omega
              · refine ⟨⟨?_, ?_, ?_, ?_, ?_⟩, ?_, ?_⟩ <;>
                  simp [if_pos hgrow, if_neg hc, hpv, hlen] <;> try omega
            · have hne : st.next_code = 4096 := by omega
              have hnb : ¬(st.next_code = 2 ^ st.bitSize ∧ st.bitSize < 12) := by
                rintro ⟨hq, hlt⟩
                have hple : 2 ^ st.bitSize ≤ 2 ^ 11 :=
                  Nat.pow_le_pow_right (by norm_num) (by omega)
                norm_num at hple
                omega
              refine ⟨⟨?_, ?_, ?_, ?_, ?_⟩, ?_, ?_⟩ <;>
                simp [if_neg hgrow, if_neg hnb, hpv, hlen] <;> try omega

/-- Every reachable decoder state satisfies the invariant. -/
theorem lzwReach_inv {m : Nat} {st : LzwState} (hm : m ≤ 11) (h : LzwReach m st) :
    LzwInv m st := by
  induction h with
  | init => exact lzwInv_init hm
  | step hr hstep ih => exact (lzwStep_inv hm ih hstep).1

/-! ## Evaluation lemmas on the concrete streams -/

theorem lzw_clear_end_eval : read_lzw_data 2 [1, 0x2C] = .ok ([], []) := by
  simp [read_lzw_data, readLzwLoop, processBytes, extractCodes, lzwStep, clearReset,
        initLzwState, initDict, resolveEntry, registerEntry,
        show List.range 4 = [0, 1, 2, 3] from rfl]

theorem parse_gix_eval : parse_gif gixInput = .ok (gixGif, []) := by
  simp [parse_gif, gixInput, gixGif, read_gif_header, read_logical_screen_descriptor,
        readExact, readU8, readU16le, readColorTableOpt, globalColorTableSize, parseLoop,
        initAcc, finishParse]

theorem parse_c1_eval : parse_gif c1Input = .ok (c1Gif, []) := by
  simp [parse_gif, c1Input, c1Gif, read_gif_header, read_logical_screen_descriptor,
        readExact, readU8, readU16le, readColorTableOpt, parseLoop, initAcc, finishParse,
        show globalColorTableSize 128 = 0 from rfl]

theorem parse_pte_eval : parse_gif pteInput = .exited 0 := by
  have hp : read_plain_text_extension
      ([12, 0, 0, 0, 0, 0, 0, 0, 0, 0, 0, 0, 0, 0, 0x3B] : List Nat) =
      .ok (⟨12, 0, 0, 0, 0, 0, 0, 0, 0, []⟩, [0x3B]) := by
    simp [read_plain_text_extension, readSubBlocks, readU8, readU16le]
  simp [parse_gif, pteInput, read_gif_header, read_logical_screen_descriptor,
        readExact, readU8, readU16le, readColorTableOpt, initAcc, finishParse,
        parseLoop_pte _ hp, parseLoop_trailer,
        show globalColorTableSize 0 = 0 from rfl]

theorem parse_imgGood_eval : parse_gif imgGoodInput = .ok (imgGoodGif, []) := by
  have hi : read_image_descriptor
      ([0x2C, 0, 0, 0, 0, 1, 0, 1, 0, 0, 2, 2, 0x44, 0x01, 0, 0x3B] : List Nat) =
      .ok (⟨0, 0, 1, 1, 0, none, 2, [0]⟩, [0, 0x3B]) := by
    simp [read_image_descriptor, readU8, readU16le, readColorTableOpt,
          read_lzw_data, readLzwLoop, processBytes, extractCodes,
          lzwStep, clearReset, initLzwState, initDict, resolveEntry, registerEntry,
          show localColorTableSize 0 = 0 from rfl,
          show List.range 4 = [0, 1, 2, 3] from rfl]
  simp [parse_gif, imgGoodInput, imgGoodGif, read_gif_header, read_logical_screen_descriptor,
        readExact, readU8, readU16le, readColorTableOpt, initAcc, finishParse,
        parseLoop_img _ hi, parseLoop_trailer,
        show globalColorTableSize 0 = 0 from rfl]

theorem parse_imgBad_eval : parse_gif imgBadInput = .err (.invalidData "Invalid GIF format.") := by
  have hi : read_image_descriptor
      ([0x2C, 0, 0, 0, 0, 1, 0, 1, 0, 0, 2, 2, 0x44, 0x01, 1, 0, 0, 0x3B] : List Nat) =
      .ok (⟨0, 0, 1, 1, 0, none, 2, [0]⟩, [1, 0, 0, 0x3B]) := by
    simp [read_image_descriptor, readU8, readU16le, readColorTableOpt,
          read_lzw_data, readLzwLoop, processBytes, extractCodes,
          lzwStep, clearReset, initLzwState, initDict, resolveEntry, registerEntry,
          show localColorTableSize 0 = 0 from rfl,
          show List.range 4 = [0, 1, 2, 3] from rfl]
  simp [parse_gif, imgBadInput, read_gif_header, read_logical_screen_descriptor,
        readExact, readU8, readU16le, readColorTableOpt, initAcc, finishParse,
        parseLoop_img _ hi, parseLoop_invalid 0 (by norm_num) (by norm_num) (by norm_num),
        show globalColorTableSize 0 = 0 from rfl]

/-! ## Characterizations used by the claims about the decoder's errors -/

theorem registerEntry_ne_invalid (st : LzwState) (entry : List Nat) (code : Nat) :
    registerEntry st entry code ≠ .invalid := by
  unfold registerEntry
  split
  · simp
  · split <;> simp

theorem resolveEntry_invalid_iff {st : LzwState} {code : Nat} :
    resolveEntry st code = .invalid ↔ st.next_code ≤ code ∧ st.prev = none := by
  unfold resolveEntry
  by_cases hlt : code < st.next_code
  · rw [if_pos hlt]
    cases st.dict[code]? <;> simp <;> omega
  · rw [if_neg hlt]
    cases hpv : st.prev with
    | none => simp [hpv]; omega
    | some p =>
      cases hdp : st.dict[p]? with
      | none => simp [hpv, hdp]
      | some pe => cases pe <;> simp [hpv, hdp]

theorem lzwStep_invalid_iff {m : Nat} {st : LzwState} {code : Nat}
    (h1 : code ≠ 2 ^ m) (h2 : code ≠ 2 ^ m + 1) :
    lzwStep m st code = .invalid ↔ resolveEntry st code = .invalid := by
  unfold lzwStep
  dsimp only
  rw [if_neg h2, if_neg h1]
  cases hre : resolveEntry st code <;> simp [registerEntry_ne_invalid]

/-- When the decoder returns on the end code inside a sub-block, everything
after that sub-block — in particular the terminator — is left unconsumed. -/
theorem readLzwLoop_finished {m bs : Nat} {rest : List Nat} {st : LzwState}
    {buf cnt : Nat} {d : List Nat} (hle : bs ≤ rest.length)
    (h : processBytes m (rest.take bs) st buf cnt = .finished d) :
    readLzwLoop m (bs :: rest) st buf cnt = .ok (d, rest.drop bs) := by
  simp only [readLzwLoop]
  rw [if_pos hle, h]

/-! ## The claims -/

/-- Claim C1 (code bug).  The spec says the global color table is read iff
the presence flag (bit 7) is set, with `2 ^ (e + 1)` entries for the
low-three-bit exponent `e`.  The code instead tests only the low three bits
(`parse_gif`, lines 489–494): a packed field `0x80` (flag set, `e = 0`) reads
no table where the spec requires 2 entries, and `0x07` (flag clear) reads 256
entries where the spec requires none; parsing `c1Input` therefore yields a
document with no global color table although its presence flag is set. -/
theorem c1_global_color_table_sizing :
    globalColorTableSize 0x80 = 0 ∧ gctSizeSpec 0x80 = 2 ∧
    globalColorTableSize 0x07 = 256 ∧ gctSizeSpec 0x07 = 0 ∧
    parse_gif c1Input = .ok (c1Gif, []) ∧ c1Gif.global_color_table = none :=
  ⟨rfl, rfl, rfl, rfl, parse_c1_eval, rfl⟩

/-- Claim C2 (amended).  `read_gif_header` performs no validation at all:
any six bytes are accepted and stored verbatim (fewer than six give an EOF
error), so a malformed signature is not fatal — and never a panic. -/
theorem c2_header_no_validation :
    ∀ s : List Nat, read_gif_header s =
      if 6 ≤ s.length then .ok (⟨s.take 3, (s.drop 3).take 3⟩, s.drop 6)
      else .err .unexpectedEof := by
  intro s
  unfold read_gif_header readExact
  by_cases h6 : 6 ≤ s.length
  · rw [if_pos h6, if_pos (show 3 ≤ s.length by omega)]
    simp only [Rr.bind_ok]
    rw [if_pos (show 3 ≤ (s.drop 3).length by simp [List.length_drop]; omega)]
    simp [List.drop_drop]
  · rw [if_neg h6]
    by_cases h3 : 3 ≤ s.length
    · rw [if_pos h3]
      simp only [Rr.bind_ok]
      rw [if_neg (show ¬3 ≤ (s.drop 3).length by simp [List.length_drop]; omega)]
      simp
    · rw [if_neg h3]
      simp

/-- Claim C2, counterexample to the claim as stated: the stream starting
`"GIX89a"` parses successfully — the parse does not fail on a bad
signature. -/
theorem c2_counterexample :
    parse_gif gixInput = .ok (gixGif, []) ∧ gixGif.header.signature ≠ [71, 73, 70] :=
  ⟨parse_gix_eval, by decide⟩

/-- Claim C3 (amended).  EOF at a sub-block boundary (while reading the next
length byte) ends the decode successfully with the bytes decoded so far;
truncation midway through a sub-block's payload is an `UnexpectedEof`
error, not a successful result. -/
theorem c3_truncation_behavior :
    (∀ (m : Nat) (st : LzwState) (buf cnt : Nat),
       readLzwLoop m [] st buf cnt = .ok (st.data, [])) ∧
    (∀ (m bs : Nat) (rest : List Nat) (st : LzwState) (buf cnt : Nat),
       rest.length < bs → readLzwLoop m (bs :: rest) st buf cnt = .err .unexpectedEof) := by
  constructor
  · intro m st buf cnt
    simp [readLzwLoop]
  · intro m bs rest st buf cnt hlt
    simp only [readLzwLoop]
    rw [if_neg (by omega)]

theorem c3_witness :
    readLzwLoop 2 (2 :: [0x44]) (initLzwState 2) 0 0 = .err .unexpectedEof :=
  c3_truncation_behavior.2 2 2 [0x44] (initLzwState 2) 0 0 (by norm_num)

/-- Claim C3, counterexample to the claim as stated: a sub-block announcing
two payload bytes of which only one is present makes the decoder return an
error, not the bytes decoded so far. -/
theorem c3_counterexample : read_lzw_data 2 [2, 0x44] = .err .unexpectedEof := by
  simp [read_lzw_data, readLzwLoop]

/-- Claim C4 (code bug).  The spec's minimal 1×1 GIF (§8) fails to parse:
because the global-color-table presence flag is ignored (see C1), the two
RGB entries are not consumed as a color table and their first byte is
misread as a block indicator, producing the invalid-format error instead of
a one-image document. -/
theorem c4_minimal_gif_parse :
    parse_gif c4Input = .err (.invalidData "Invalid GIF format.") := by
  simp [parse_gif, c4Input, read_gif_header, read_logical_screen_descriptor,
        readExact, readU8, readU16le, readColorTableOpt, parseLoop, initAcc, finishParse,
        show globalColorTableSize 128 = 0 from rfl]

/-- Claim C5 (confirmed).  A parse that returns a document never returns one
with a nonempty plain-text-extension list (the plain-text flag forces the
`exit(0)` path after the block loop instead of the `Ok` return), and a
stream containing a plain-text extension makes the parse end in the
process-wide exit. -/
theorem c5_plain_text_exit :
    (∀ (s : List Nat) (g : GIF) (rest : List Nat), parse_gif s = .ok (g, rest) →
       g.plain_text_extensions = []) ∧
    parse_gif pteInput = .exited 0 := by
  constructor
  · intro s g rest h
    unfold parse_gif at h
    simp only [Rr.bind_eq_ok, Prod.exists] at h
    obtain ⟨hd, s1, h1, lsd, s2, h2, gct, s3, h3, h⟩ := h
    cases hloop : parseLoop s3 initAcc with
    | ok pr =>
      obtain ⟨acc, rest2⟩ := pr
      rw [hloop] at h
      simp only [finishParse] at h
      split at h
      · simp at h
      · rename_i hfound
        simp only [Rr.ok.injEq, Prod.mk.injEq] at h
        obtain ⟨hgeq, -⟩ := h
        subst hgeq
        have hempty := parseLoop_pt_inv hloop (by simp [initAcc]) (by simpa using hfound)
        simpa using hempty
    | err e =>
      rw [hloop] at h
      simp [finishParse] at h
    | panicked =>
      rw [hloop] at h
      simp [finishParse] at h
    | exited c =>
      rw [hloop] at h
      simp [finishParse] at h
  · exact parse_pte_eval

theorem c5_witness : gixGif.plain_text_extensions = [] :=
  c5_plain_text_exit.1 gixInput gixGif [] parse_gix_eval

/-- Claim C6 (confirmed).  For a non-control code, the decoder fails with
the invalid-code error exactly when the code is not yet in the dictionary
(`next_code ≤ code`) and there is no previous-code context; with a previous
code whose dictionary entry is nonempty, such an unknown code is instead
synthesized as the previous sequence plus its own first byte and decoding
continues. -/
theorem c6_invalid_code :
    ∀ (m : Nat) (st : LzwState) (code : Nat), code ≠ 2 ^ m → code ≠ 2 ^ m + 1 →
      ((lzwStep m st code = .invalid ↔ st.next_code ≤ code ∧ st.prev = none) ∧
       ∀ p b t, st.prev = some p → st.dict[p]? = some (b :: t) → st.next_code ≤ code →
         ∃ st2, lzwStep m st code = .next st2 ∧
           st2.data = st.data ++ ((b :: t) ++ [b])) := by
  intro m st code h1 h2
  constructor
  · exact (lzwStep_invalid_iff h1 h2).trans resolveEntry_invalid_iff
  · intro p b t hpv hdp hge
    have hres : resolveEntry st code = .ok ((b :: t) ++ [b]) := by
      unfold resolveEntry
      rw [if_neg (by omega)]
      simp [hpv, hdp]
    unfold lzwStep
    dsimp only
    rw [if_neg h2, if_neg h1, hres]
    show ∃ st2, registerEntry st ((b :: t) ++ [b]) code = .next st2 ∧
      st2.data = st.data ++ ((b :: t) ++ [b])
    unfold registerEntry
    simp only [hpv, hdp]
    exact ⟨_, rfl, by simp⟩

theorem c6_witness : lzwStep 2 (initLzwState 2) 7 = .invalid :=
  (c6_invalid_code 2 (initLzwState 2) 7 (by norm_num) (by norm_num)).1.mpr (by decide)

/-- Claim C7 (amended).  For decodes whose minimum code size is at most 11:
every reachable decoder state keeps the dictionary within 4096 entries and
the code width within 12 bits; a step grows the dictionary only when a
previous code exists; and the width increases by one exactly when the step
increments `next_code` to reach `2 ^ (current width)` with the width still
below 12. -/
theorem c7_amended_invariants :
    ∀ (m : Nat) (st : LzwState), m ≤ 11 → LzwReach m st →
      (st.dict.length ≤ 4096 ∧ st.bitSize ≤ 12) ∧
      ∀ (code : Nat) (st2 : LzwState), lzwStep m st code = .next st2 →
        (st2.dict.length ≤ 4096 ∧ st2.bitSize ≤ 12) ∧
        (st.dict.length < st2.dict.length → st.prev.isSome = true) ∧
        (st2.bitSize = st.bitSize + 1 ↔
          st2.next_code = st.next_code + 1 ∧ st2.next_code = 2 ^ st.bitSize ∧
            st.bitSize < 12) := by
  intro m st hm hr
  obtain ⟨hlen, hlo, hhi, hb1, hb2⟩ := lzwReach_inv hm hr
  refine ⟨⟨by omega, hb2⟩, ?_⟩
  intro code st2 hstep
  obtain ⟨⟨hlen2, hlo2, hhi2, hb12, hb22⟩, honly, hbump⟩ :=
    lzwStep_inv hm ⟨hlen, hlo, hhi, hb1, hb2⟩ hstep
  exact ⟨⟨by omega, hb22⟩, honly, hbump⟩

theorem c7_witness :
    (initLzwState 2).dict.length ≤ 4096 ∧ (initLzwState 2).bitSize ≤ 12 :=
  (c7_amended_invariants 2 (initLzwState 2) (by norm_num) LzwReach.init).1

/-- Claim C7, counterexample to the claim as stated: with minimum code size
12 (a value the parser never rejects), the decoder's initial state — a state
of every such decode — already has 4098 dictionary entries and a 13-bit code
width. -/
theorem c7_counterexample :
    LzwReach 12 (initLzwState 12) ∧ (initLzwState 12).dict.length = 4098 ∧
    4096 < (initLzwState 12).dict.length ∧ 12 < (initLzwState 12).bitSize := by
  refine ⟨LzwReach.init, ?_, ?_, ?_⟩ <;>
    simp [initLzwState, initDict_length]

/-- Claim C8 (confirmed).  A clear code puts the decoder in the reset state
with its output unchanged; an end code in the reset state finishes
immediately with that output, so a code stream of initial-clear-then-end
decodes to zero bytes — as the concrete stream `01 2C` (clear, end in 3-bit
codes) confirms end to end. -/
theorem c8_end_after_clear :
    (∀ (m : Nat) (st : LzwState), lzwStep m st (2 ^ m) = .next (clearReset m st)) ∧
    (∀ (m : Nat) (st : LzwState),
       lzwStep m (clearReset m st) (2 ^ m + 1) = .finished st.data) ∧
    read_lzw_data 2 [1, 0x2C] = .ok ([], []) := by
  refine ⟨?_, ?_, lzw_clear_end_eval⟩
  · intro m st
    unfold lzwStep
    dsimp only
    rw [if_neg (by omega), if_pos rfl]
  · intro m st
    unfold lzwStep
    dsimp only
    rw [if_pos rfl]
    rfl

/-- Claim C9 (amended).  The serializer emits each comment extension as the
introducer, one length byte holding the concatenated fragments' length
reduced mod 256, the concatenation, and a terminator; when the concatenation
is at most 255 bytes this is exactly one well-formed length-prefixed
sub-block followed by the zero terminator, regardless of the original
fragment boundaries. -/
theorem c9_single_block_comment :
    ∀ c : CommentExtension, c.comments.flatten.length ≤ 255 →
      writeCommentExt c = [0x21, 0xFE] ++ singleSubBlock c.comments.flatten := by
  intro c h
  unfold writeCommentExt singleSubBlock
  rw [Nat.mod_eq_of_lt (show c.comments.flatten.length < 256 by omega)]
  simp

theorem c9_witness :
    writeCommentExt ⟨[[5, 6]]⟩ =
      [0x21, 0xFE] ++ singleSubBlock (CommentExtension.mk [[5, 6]]).comments.flatten :=
  c9_single_block_comment ⟨[[5, 6]]⟩ (by decide)

set_option maxRecDepth 4000 in
/-- Claim C9, counterexample to the claim as stated: a comment whose
fragments concatenate to 256 bytes is not emitted as a single well-formed
length-prefixed sub-block — the length byte wraps to 0. -/
theorem c9_counterexample :
    writeCommentExt bigComment ≠ [0x21, 0xFE] ++ singleSubBlock bigComment.comments.flatten := by
  decide

/-- Claim C10 (confirmed).  After an image block the parser always skips
exactly one extra byte before the next indicator; the LZW decoder returns on
the end code leaving everything after the containing sub-block — including
the terminator — unconsumed; consequently parsing continues at the right
position when the end code lies in the final sub-block with exactly one
terminator byte after it (`imgGoodInput`), and misparses when an extra
sub-block precedes the terminator (`imgBadInput`). -/
theorem c10_image_advance :
    (∀ (rest rest2 : List Nat) (img : ImageDescriptor) (acc : ParseAcc),
       read_image_descriptor (0x2C :: rest) = .ok (img, rest2) →
       parseLoop (0x2C :: rest) acc =
         parseLoop (rest2.drop 1)
           { acc with image_descriptors := acc.image_descriptors ++ [img] }) ∧
    (∀ (m bs : Nat) (rest : List Nat) (st : LzwState) (buf cnt : Nat) (d : List Nat),
       bs ≤ rest.length → processBytes m (rest.take bs) st buf cnt = .finished d →
       readLzwLoop m (bs :: rest) st buf cnt = .ok (d, rest.drop bs)) ∧
    parse_gif imgGoodInput = .ok (imgGoodGif, []) ∧
    parse_gif imgBadInput = .err (.invalidData "Invalid GIF format.") := by
  refine ⟨?_, ?_, parse_imgGood_eval, parse_imgBad_eval⟩
  · intro rest rest2 img acc h
    exact parseLoop_img acc h
  · intro m bs rest st buf cnt d hle h
    exact readLzwLoop_finished hle h

theorem c10_witness :
    readLzwLoop 2 (2 :: [0x44, 0x01, 0, 0x3B]) (initLzwState 2) 0 0 = .ok ([0], [0, 0x3B]) := by
  have hpb : processBytes 2 ([0x44, 0x01, 0, 0x3B].take 2) (initLzwState 2) 0 0 =
      .finished [0] := by
    simp [processBytes, extractCodes, lzwStep, clearReset, initLzwState, initDict,
          resolveEntry, registerEntry, show List.range 4 = [0, 1, 2, 3] from rfl]
  have hres := c10_image_advance.2.1 2 2 [0x44, 0x01, 0, 0x3B] (initLzwState 2) 0 0 [0]
    (by norm_num) hpb
  simpa using hres

end GifSauce
